import Mathlib

/-!
Verification of the trust-boundary engine of `make-it-so`
(`src/security.rs`, `src/commands/run.rs`).

The Rust code is shallowly embedded: Rust `String`/`&str` values become
Lean `String`s (a `String` here is a structure wrapping a `List Char`),
and the Rust string primitives used by the validators (`trim`,
`to_lowercase`, `starts_with`, `contains`, `is_empty`) are modelled by
executable list-based functions below.  `Result<T, String>` becomes
`Except String T`.  Vectors become lists.
-/

namespace MakeItSo

/-! ### Rust string primitives -/

/-- Whitespace test for the characters relevant to `str::trim`
(space, tab, newline, carriage return). -/
def wsChar (c : Char) : Bool :=
  decide (c.toNat = 32 ∨ c.toNat = 9 ∨ c.toNat = 10 ∨ c.toNat = 13)

/-- ASCII lowercasing of one character, as done by `str::to_lowercase`
on ASCII input. -/
def lowerChar (c : Char) : Char :=
  if 65 ≤ c.toNat && c.toNat ≤ 90 then Char.ofNat (c.toNat + 32) else c

/-- Drop whitespace from both ends of a character list (`str::trim`). -/
def trimList (l : List Char) : List Char :=
  ((l.dropWhile wsChar).reverse.dropWhile wsChar).reverse

/-- Model of Rust `str::trim`. -/
def strTrim (s : String) : String := ⟨trimList s.data⟩

/-- Model of Rust `str::to_lowercase` (ASCII fragment). -/
def strLower (s : String) : String := ⟨s.data.map lowerChar⟩

/-- Model of Rust `str::is_empty`. -/
def strIsEmpty (s : String) : Bool := s.data.isEmpty

/-- Model of Rust `str::starts_with` for a string pattern. -/
def strStartsWith (s pre : String) : Bool := pre.data.isPrefixOf s.data

/-- Contiguous-sublist test used to model Rust `str::contains` for a
string pattern. -/
def containsSub (pat : List Char) : List Char → Bool
  | [] => pat.isEmpty
  | c :: t => pat.isPrefixOf (c :: t) || containsSub pat t

/-- Model of Rust `str::contains` for a string pattern. -/
def strContains (s pat : String) : Bool := containsSub pat.data s.data

/-- Model of Rust `str::contains` for a single-character pattern. -/
def strContainsChar (s : String) (c : Char) : Bool := s.data.contains c

/-! ### `PluginPermissions` validators (src/security.rs lines 16-162) -/

/-- The `dangerous_paths` array of `validate_file_path`
(src/security.rs lines 30-49). -/
def dangerous_paths : List String :=
  ["/etc/", "/root/", "/sys/", "/proc/", "/dev/", "/tmp/", "/boot/",
   "/usr/bin/", "/usr/sbin/", "/bin/", "/sbin/",
   "C:\\Windows\\", "C:\\Program Files\\", "C:\\Users\\", "C:\\temp\\",
   "/System/", "/Library/", "/Applications/"]

/-- Embedding of `PluginPermissions::validate_file_path`
(src/security.rs lines 18-58). -/
def validate_file_path (path : String) : Except String String :=
  if strIsEmpty (strTrim path) then .error "Empty path not allowed"
  else if strContains path ".." then
    .error ("Path traversal not allowed: " ++ path)
  else if dangerous_paths.any (fun d => strStartsWith path d) then
    .error ("Access to system directory not allowed: " ++ path)
  else .ok path

/-- The `dangerous_ips` array of `validate_network_domain`
(src/security.rs line 76). -/
def dangerous_ips : List String :=
  ["0.0.0.0", "::", "localhost", "127.0.0.1", "::1"]

/-- The `metadata_hosts` array of `validate_network_domain`
(src/security.rs lines 84-102). -/
def metadata_hosts : List String :=
  ["169.254.169.254", "instance-data.ec2.internal",
   "100.100.100.200", "metadata.google.internal",
   "169.254.169.254", "metadata.azure.com",
   "100.100.100.200",
   "169.254.169.254.nip.io", "169.254.169.254.xip.io",
   "metadata", "169-254-169-254.nip.io", "metadata.local"]

/-- Embedding of `PluginPermissions::validate_network_domain`
(src/security.rs lines 61-123). -/
def validate_network_domain (domain : String) : Except String String :=
  let normalized_domain := strLower (strTrim domain)
  if strIsEmpty normalized_domain then .error "Empty domain not allowed"
  else if strContainsChar normalized_domain '*' then
    .error ("Wildcard domains not allowed: " ++ domain)
  else if dangerous_ips.contains normalized_domain then
    .error ("Broad network access not allowed: " ++ domain)
  else if metadata_hosts.contains normalized_domain then
    .error ("Cloud metadata service access not allowed: " ++ domain)
  else if strStartsWith normalized_domain "192.168." ||
          strStartsWith normalized_domain "10." ||
          strStartsWith normalized_domain "172." then
    .error ("Private network access not allowed: " ++ domain)
  else .ok normalized_domain

/-- The `dangerous_chars` array of `validate_command`
(src/security.rs line 138). -/
def dangerous_chars : List Char := "&|;><`$(){}".data

/-- The `dangerous_commands` array of `validate_command`
(src/security.rs lines 149-152). -/
def dangerous_commands : List String :=
  ["rm", "del", "format", "fdisk", "dd", "mkfs", "sudo", "su", "chmod",
   "chown", "passwd", "curl", "wget", "nc", "netcat", "telnet", "ssh",
   "scp", "rsync", "ftp", "eval", "exec"]

/-- Embedding of `PluginPermissions::validate_command`
(src/security.rs lines 126-161). -/
def validate_command (command : String) : Except String String :=
  if strIsEmpty (strTrim command) then .error "Empty command not allowed"
  else if strContainsChar command ' ' || strContainsChar command '\t' then
    .error ("Commands with arguments not allowed: " ++ command)
  else if dangerous_chars.any (fun c => strContainsChar command c) then
    .error ("Command contains dangerous characters: " ++ command)
  else if dangerous_commands.contains command then
    .error ("Dangerous command not allowed: " ++ command)
  else .ok command

/-! ### Permission policy and compiler (src/security.rs lines 6-374) -/

/-- Embedding of the `PluginPermissions` struct (src/security.rs lines 7-13). -/
structure PluginPermissions where
  file_read : List String
  file_write : List String
  env_access : Bool
  network : List String
  run_commands : List String
deriving DecidableEq, Repr

/-- Embedding of `PluginPermissions::safe_defaults`
(src/security.rs lines 166-182); `project_root` is the textual form of
the project-root path. -/
def safe_defaults (project_root : String) : PluginPermissions :=
  { file_read := [project_root, ".makeitso"]
    file_write := [project_root]
    env_access := true
    network := []
    run_commands := [] }

/-- Embedding of `PluginPermissions::allow_read`
(src/security.rs lines 217-233): validation failure leaves the policy
unchanged (the warning print is dropped), duplicates are skipped. -/
def allow_read (p : PluginPermissions) (path : String) : PluginPermissions :=
  match validate_file_path path with
  | .ok validated_path =>
      if p.file_read.contains validated_path then p
      else { p with file_read := p.file_read ++ [validated_path] }
  | .error _ => p

/-- Embedding of `PluginPermissions::allow_write`
(src/security.rs lines 236-253). -/
def allow_write (p : PluginPermissions) (path : String) : PluginPermissions :=
  match validate_file_path path with
  | .ok validated_path =>
      if p.file_write.contains validated_path then p
      else { p with file_write := p.file_write ++ [validated_path] }
  | .error _ => p

/-- Embedding of `PluginPermissions::allow_network`
(src/security.rs lines 256-273). -/
def allow_network (p : PluginPermissions) (domain : String) : PluginPermissions :=
  match validate_network_domain domain with
  | .ok validated_domain =>
      if p.network.contains validated_domain then p
      else { p with network := p.network ++ [validated_domain] }
  | .error _ => p

/-- Embedding of `PluginPermissions::allow_run`
(src/security.rs lines 276-290). -/
def allow_run (p : PluginPermissions) (command : String) : PluginPermissions :=
  match validate_command command with
  | .ok validated_command =>
      if p.run_commands.contains validated_command then p
      else { p with run_commands := p.run_commands ++ [validated_command] }
  | .error _ => p

/-- Embedding of `PluginPermissions::to_deno_args`
(src/security.rs lines 185-214). -/
def to_deno_args (p : PluginPermissions) : List String :=
  (if p.file_read.isEmpty then []
   else ["--allow-read=" ++ String.intercalate "," p.file_read]) ++
  (if p.file_write.isEmpty then []
   else ["--allow-write=" ++ String.intercalate "," p.file_write]) ++
  (if p.env_access then ["--allow-env"] else []) ++
  (if p.network.isEmpty then []
   else ["--allow-net=" ++ String.intercalate "," p.network]) ++
  (if p.run_commands.isEmpty then []
   else ["--allow-run=" ++ String.intercalate "," p.run_commands])

/-- Embedding of the `SecurityPermissions` struct (src/models.rs lines
35-55): the manifest-declared, untrusted permission request. -/
structure SecurityPermissions where
  file_read : List String := []
  file_write : List String := []
  env_access : Option Bool := none
  network : List String := []
  run_commands : List String := []
deriving DecidableEq, Repr

/-- Embedding of the `PluginCommand` struct (src/models.rs lines
99-114), restricted to the fields read by the security core (the
presentation-only fields `description`, `instructions`, `args` are
omitted). -/
structure PluginCommand where
  script : String
  permissions : Option SecurityPermissions := none
deriving DecidableEq, Repr

/-- Embedding of the `PluginManifest` struct (src/models.rs lines
72-80), restricted to the fields read by the security core; the
`commands` hash map is modelled as an association list keyed by
command name. -/
structure PluginManifest where
  commands : List (String × PluginCommand) := []
  permissions : Option SecurityPermissions := none
deriving DecidableEq, Repr

/-- Embedding of `apply_security_permissions` (src/security.rs lines
337-368): each declared entry is pushed through the matching `allow_*`
method; an explicitly present `env_access` overrides. The Rust
function's `Result<()>` is always `Ok` (no fallible operation occurs in
its body), so the state transformation is modelled directly. -/
def apply_security_permissions (p : PluginPermissions)
    (config_perms : SecurityPermissions) : PluginPermissions :=
  let p := config_perms.file_read.foldl allow_read p
  let p := config_perms.file_write.foldl allow_write p
  let p := match config_perms.env_access with
           | some env_access => { p with env_access := env_access }
           | none => p
  let p := config_perms.network.foldl allow_network p
  config_perms.run_commands.foldl allow_run p

/-- Body of `build_plugin_permissions` (src/security.rs lines 305-330):
safe defaults, then plugin-level declared permissions, then the invoked
command's declared permissions. -/
def build_plugin_permissions_core (project_root : String)
    (plugin_manifest : PluginManifest) (command_name : String) :
    PluginPermissions :=
  let permissions := safe_defaults project_root
  let permissions :=
    match plugin_manifest.permissions with
    | some plugin_perms => apply_security_permissions permissions plugin_perms
    | none => permissions
  match plugin_manifest.commands.lookup command_name with
  | some command =>
      match command.permissions with
      | some command_perms => apply_security_permissions permissions command_perms
      | none => permissions
  | none => permissions

/-- Embedding of `build_plugin_permissions` (src/security.rs lines
305-330) with its `Result<PluginPermissions>` return type; the body
contains no failing path. -/
def build_plugin_permissions (project_root : String)
    (plugin_manifest : PluginManifest) (command_name : String) :
    Except String PluginPermissions :=
  .ok (build_plugin_permissions_core project_root plugin_manifest command_name)

/-! ### Sandbox launcher (src/commands/run.rs lines 212-288) -/

/-- The transport-file path built by `execute_plugin`
(src/commands/run.rs line 243): `temp_dir.join(format!("mis-context-{}.json", pid))`. -/
def context_file_path (temp_dir : String) (pid : Nat) : String :=
  temp_dir ++ "/mis-context-" ++ toString pid ++ ".json"

/-- The Deno argument vector assembled by `execute_plugin`
(src/commands/run.rs lines 255-262): permission flags from the compiled
policy extended with a read grant for the transport file, then the
script path and the transport-file path. -/
def execute_plugin_deno_args (temp_dir : String) (pid : Nat)
    (project_root : String) (plugin_manifest : PluginManifest)
    (command_name script_path : String) : List String :=
  match build_plugin_permissions project_root plugin_manifest command_name with
  | .error _ => []
  | .ok permissions =>
      let cf := context_file_path temp_dir pid
      let permissions := allow_read permissions cf
      ["run"] ++ to_deno_args permissions ++
        [script_path, "--context-file", cf]

/-- Outcomes of `execute_plugin` after the transport file has been
written and the `ContextFileCleanup` guard constructed
(src/commands/run.rs lines 248-281): an error before the file is
written (`earlyError`: dependency caching, missing script, or context
serialization failure), a spawn failure, plugin exit with either
status, a host-process error between guard creation and spawn
(`hostError`: e.g. `current_dir` failure), or a host panic unwinding
through the call. -/
inductive LaunchOutcome where
  | earlyError
  | spawnFailed
  | exitedOk
  | exitedNonZero
  | hostError
  | panicked
deriving DecidableEq, Repr

/-- Result classification of one `execute_plugin` call. -/
inductive LaunchResult where
  | ok
  | err
  | panic
deriving DecidableEq, Repr

/-- The `Drop` impl of `ContextFileCleanup` (src/commands/run.rs lines
276-288): remove the transport file if it exists (a failed removal is
only logged; the model keeps removal exact since the claim is about the
guard running on every path). The file system is modelled as the list
of existing paths. -/
def contextFileCleanup (fs : List String) (file_path : String) : List String :=
  fs.filter (fun p => p ≠ file_path)

/-- File-system effect of one `execute_plugin` call
(src/commands/run.rs lines 212-284): on an `earlyError` the transport
file was never written; on every other outcome the file is written and
the `ContextFileCleanup` guard is dropped on the way out — on error
return paths via `?`, after `wait` via the explicit `drop`, and during
unwinding on a panic. -/
def execute_plugin_fs (fs : List String) (context_file : String)
    (outcome : LaunchOutcome) : LaunchResult × List String :=
  match outcome with
  | .earlyError => (.err, fs)
  | .spawnFailed =>
      (.err, contextFileCleanup (fs ++ [context_file]) context_file)
  | .exitedOk =>
      (.ok, contextFileCleanup (fs ++ [context_file]) context_file)
  | .exitedNonZero =>
      (.err, contextFileCleanup (fs ++ [context_file]) context_file)
  | .hostError =>
      (.err, contextFileCleanup (fs ++ [context_file]) context_file)
  | .panicked =>
      (.panic, contextFileCleanup (fs ++ [context_file]) context_file)

/-! ### URL validation (src/security.rs lines 376-575)

The source delegates URL decomposition to the external `url` crate
(`url::Url::parse`).  The fragment of that parser exercised here is
modelled by `parse_url` below: a valid scheme before the first `:`,
then an optional `//authority` from which the host is the part after
the last `@`, up to the first `/`, `?` or `#`, with any `:port` suffix
stripped (bracketed IPv6 hosts keep their brackets, mirroring
`Url::host_str`).  Scheme and host are lowercased as the crate does.
A URL whose scheme part is not a syntactically valid scheme fails to
parse, as in the crate. -/

/-- Split a character list at the first occurrence of `c`; `none` if
`c` does not occur. -/
def breakAt (c : Char) : List Char → Option (List Char × List Char)
  | [] => none
  | a :: t =>
      if a == c then some ([], t)
      else (breakAt c t).map (fun x => (a :: x.1, x.2))

/-- Valid characters of a URL scheme after the first (RFC 3986). -/
def schemeTailChar (c : Char) : Bool :=
  c.isAlpha || c.isDigit || c == '+' || c == '-' || c == '.'

/-- Syntactic validity of a URL scheme (RFC 3986: one alphabetic
character, then alphanumerics, `+`, `-`, `.`). -/
def validScheme : List Char → Bool
  | [] => false
  | c :: rest => c.isAlpha && rest.all schemeTailChar

/-- Extract the host from a URL authority component: drop any
userinfo (up to the last `@`), then strip a `:port` suffix; a
bracketed IPv6 host keeps its brackets. -/
def hostOfAuthority (auth : List Char) : List Char :=
  let hostport :=
    match breakAt '@' auth.reverse with
    | some x => x.1.reverse
    | none => auth
  match hostport with
  | '[' :: _ => hostport.takeWhile (fun c => !(c == ']')) ++ [']']
  | _ => hostport.takeWhile (fun c => !(c == ':'))

/-- Model of `url::Url::parse` restricted to the observations the
source makes of it: the scheme and the host (`host_str().unwrap_or("")`
is the empty string when the URL has no authority). Returns `none` when
parsing fails. -/
def parse_url (s : String) : Option (String × String) :=
  match breakAt ':' s.data with
  | none => none
  | some (schemeRaw, rest) =>
      if validScheme schemeRaw then
        let scheme : String := ⟨schemeRaw.map lowerChar⟩
        match rest with
        | '/' :: '/' :: afterSlashes =>
            let auth := afterSlashes.takeWhile
              (fun c => !(c == '/') && !(c == '?') && !(c == '#'))
            some (scheme, ⟨(hostOfAuthority auth).map lowerChar⟩)
        | _ => some (scheme, "")
      else none

/-- Embedding of `is_private_ip` (src/security.rs lines 477-501). -/
def parse_u8 (l : List Char) : Option Nat :=
  if l.isEmpty then none
  else if l.all Char.isDigit then
    let v := l.foldl (fun a c => a * 10 + (c.toNat - 48)) 0
    if v ≤ 255 then some v else none
  else none

/-- Embedding of `is_private_ip` (src/security.rs lines 477-501):
`192.168.*`, `10.*`, and `172.<n>.*` with `16 ≤ n ≤ 31`. -/
def is_private_ip (host : String) : Bool :=
  if strStartsWith host "192.168." then true
  else if strStartsWith host "10." then true
  else if strStartsWith host "172." then
    match breakAt '.' host.data with
    | some x =>
        let second_octet :=
          match breakAt '.' x.2 with
          | some y => y.1
          | none => x.2
        match parse_u8 second_octet with
        | some num => decide (16 ≤ num) && decide (num ≤ 31)
        | none => false
    | none => false
  else false

/-- Embedding of `validate_host_for_external_access`
(src/security.rs lines 447-474). -/
def validate_host_for_external_access (host : String) (context : String) :
    Except String Unit :=
  if strIsEmpty host then
    .error ("Empty host not allowed for " ++ context ++ " URLs")
  else if host == "localhost" || host == "127.0.0.1" || host == "::1" ||
          strStartsWith host "[::1]" then
    .error ("localhost/loopback access not allowed for " ++ context ++ " URLs")
  else if host == "169.254.169.254" || host == "100.100.100.200" then
    .error "Cloud metadata service access not allowed"
  else if is_private_ip host then
    .error ("Private network access not allowed for " ++ context ++ " URLs")
  else .ok ()

/-- Embedding of `is_trusted_git_domain` (src/security.rs lines
504-509): currently no domain is trusted with HTTP. -/
def is_trusted_git_domain (_host : String) : Bool := false

/-- Embedding of `validate_url_for_git_operations`
(src/security.rs lines 382-444). -/
def validate_url_for_git_operations (url : String) (context : String) :
    Except String String :=
  if strIsEmpty (strTrim url) then
    .error ("Empty " ++ context ++ " URL not allowed")
  else
    let url_trimmed := strTrim url
    if strStartsWith url_trimmed "git@" then .ok url_trimmed
    else if strContains url_trimmed "::1" then
      .error ("localhost/loopback access not allowed for " ++ context ++ " URLs")
    else
      match parse_url url_trimmed with
      | none => .error ("Invalid " ++ context ++ " URL format: " ++ url_trimmed)
      | some (scheme, host) =>
          if scheme == "file" then
            .error "file:// URLs not allowed for security reasons"
          else if scheme == "javascript" || scheme == "data" ||
                  scheme == "ftp" then
            .error ("Dangerous scheme not allowed: " ++ scheme)
          else
            match validate_host_for_external_access host context with
            | .error e => .error e
            | .ok _ =>
                if scheme == "http" then
                  if is_trusted_git_domain host then .ok url_trimmed
                  else .error "HTTPS required for remote repositories (HTTP is insecure)"
                else if scheme == "https" || scheme == "ssh" ||
                        scheme == "git" then .ok url_trimmed
                else .error ("Unsupported scheme for " ++ context ++ " URLs: " ++ scheme)

/-- Embedding of `validate_registry_url` (src/security.rs lines 377-379). -/
def validate_registry_url (url : String) : Except String String :=
  validate_url_for_git_operations url "registry"

/-- Embedding of `validate_url_for_dependencies`
(src/security.rs lines 517-575). -/
def validate_url_for_dependencies (url : String) : Except String String :=
  if strIsEmpty (strTrim url) then
    .error "Empty dependency URL not allowed"
  else
    let url_trimmed := strTrim url
    if strStartsWith url_trimmed "../" || strContains url_trimmed "/../" then
      .error "Relative path injection not allowed in dependency URLs"
    else if strContains url_trimmed "::1" then
      .error "localhost/loopback access not allowed for dependency URLs"
    else
      match parse_url url_trimmed with
      | none => .error ("Invalid dependency URL format: " ++ url_trimmed)
      | some (scheme, host) =>
          if scheme == "file" then
            .error "file:// scheme not allowed for dependencies"
          else if scheme == "javascript" || scheme == "data" ||
                  scheme == "ftp" || scheme == "mailto" then
            .error ("Dangerous scheme not allowed for dependencies: " ++ scheme)
          else
            match validate_host_for_external_access host "dependency" with
            | .error e => .error e
            | .ok _ =>
                if scheme == "http" then
                  .error "HTTPS required for remote dependencies (HTTP is insecure)"
                else if scheme == "https" then .ok url_trimmed
                else .error ("Unsupported scheme for dependency URLs: " ++ scheme)

example : parse_url "https://github.com/user/repo.git" = some ("https", "github.com") := by rfl
example : parse_url "https://metadata.google.internal/repo" = some ("https", "metadata.google.internal") := by rfl
example : parse_url "alice@github.com:user/repo.git" = none := by rfl
example : parse_url "ssh://git@github.com/user/repo.git" = some ("ssh", "github.com") := by rfl
example : parse_url "data:text/plain,evil" = some ("data", "") := by rfl
example : parse_url "http://localhost:8080/lib.ts" = some ("http", "localhost") := by rfl
example : (validate_registry_url "https://github.com/user/repo.git") = .ok "https://github.com/user/repo.git" := by rfl
example : (validate_registry_url "git@github.com:user/repo.git") = .ok "git@github.com:user/repo.git" := by rfl
example : (validate_registry_url "file:///etc/passwd").isOk = false := by decide
example : (validate_registry_url "http://localhost/repo").isOk = false := by decide
example : (validate_registry_url "http://192.168.1.1/repo").isOk = false := by decide
example : (validate_url_for_dependencies "https://deno.land/x/oak@v12.6.1/mod.ts").isOk = true := by decide
example : (validate_url_for_dependencies "http://deno.land/x/evil").isOk = false := by decide
example : (validate_url_for_dependencies "ftp://evil.com/lib.ts").isOk = false := by decide

/-! ### Derived predicates -/

/-- The invariant claimed for compiled policies: every element of every
list satisfies its validator's acceptance predicate. -/
def PolicyValid (p : PluginPermissions) : Prop :=
  (∀ x ∈ p.file_read, (validate_file_path x).isOk = true) ∧
  (∀ x ∈ p.file_write, (validate_file_path x).isOk = true) ∧
  (∀ x ∈ p.network, (validate_network_domain x).isOk = true) ∧
  (∀ x ∈ p.run_commands, (validate_command x).isOk = true)

instance (p : PluginPermissions) : Decidable (PolicyValid p) := by
  unfold PolicyValid; infer_instance

/-! ### Concrete fixtures used by the claim theorems -/

/-- Manifest fixture: plugin-level and command-level declared
permissions with both accepted and rejected entries. -/
def mixedManifest : PluginManifest :=
  { commands :=
      [("deploy",
        { script := "./deploy.ts"
          permissions := some
            { file_read := ["./secret-config"]
              network := ["docker.io"]
              run_commands := ["docker"] } })]
    permissions := some
      { file_read := ["./config", "/etc/passwd"]
        file_write := ["./output"]
        env_access := some false
        network := ["API.GitHub.Com", "localhost"]
        run_commands := ["git", "rm"] } }

/-- Manifest fixture: plugin-level `run_commands = ["git"]`,
command-level `run_commands = ["git", "docker"]` on command `deploy`. -/
def unionManifest : PluginManifest :=
  { commands :=
      [("deploy",
        { script := "./deploy.ts"
          permissions := some { run_commands := ["git", "docker"] } })]
    permissions := some { run_commands := ["git"] } }

/-- Manifest fixture: plugin-level `run_commands = ["rm -rf /"]`. -/
def rmManifest : PluginManifest :=
  { commands := []
    permissions := some { run_commands := ["rm -rf /"] } }

example : (validate_file_path "/etc/passwd").isOk = false := by decide
example : (validate_file_path "./vendor/certs").isOk = true := by decide
example : (validate_file_path "C:\\temp\\x").isOk = false := by decide
example : (validate_network_domain "api.github.com") = .ok "api.github.com" := by rfl
example : (validate_network_domain "172.32.0.1").isOk = false := by decide
example : (validate_network_domain "  API.GitHub.Com ") = .ok "api.github.com" := by rfl
example : (validate_command "git") = .ok "git" := by rfl
example : (validate_command "rm -rf /").isOk = false := by decide
example : (validate_command "git;ls").isOk = false := by decide

/-! ### String lemmas -/

@[simp] theorem except_isOk_error (e : ε) :
    (Except.error e : Except ε α).isOk = false := rfl

@[simp] theorem except_isOk_ok (a : α) :
    (Except.ok a : Except ε α).isOk = true := rfl

@[simp] theorem except_toOption_error (e : ε) :
    (Except.error e : Except ε α).toOption = none := rfl

@[simp] theorem except_toOption_ok (a : α) :
    (Except.ok a : Except ε α).toOption = some a := rfl

theorem dropWhile_dropWhile_self (p : α → Bool) (l : List α) :
    (l.dropWhile p).dropWhile p = l.dropWhile p := by
  induction l with
  | nil => rfl
  | cons a t ih =>
      by_cases h : p a
      · simpa [List.dropWhile_cons, h] using ih
      · simp [List.dropWhile_cons, h]

theorem head?_dropWhile_false (p : α → Bool) (l : List α) {a : α}
    (h : (l.dropWhile p).head? = some a) : p a = false := by
  induction l with
  | nil => simp at h
  | cons b t ih =>
      rw [List.dropWhile_cons] at h
      split at h
      · exact ih h
      · rename_i hb
        simp only [List.head?_cons, Option.some.injEq] at h
        subst h
        simpa using hb

theorem getLast?_dropWhile (p : α → Bool) (l : List α) :
    l.dropWhile p = [] ∨ (l.dropWhile p).getLast? = l.getLast? := by
  induction l with
  | nil => left; rfl
  | cons a t ih =>
      rw [List.dropWhile_cons]
      split
      · rcases ih with h | h
        · left; exact h
        · cases t with
          | nil => left; rfl
          | cons b t' =>
              right
              rw [h, List.getLast?_cons_cons]
      · right; rfl

theorem dropWhile_eq_self_of_head (p : α → Bool) (l : List α)
    (h : ∀ a, l.head? = some a → p a = false) : l.dropWhile p = l := by
  cases l with
  | nil => rfl
  | cons a t => simp [List.dropWhile_cons, h a rfl]

theorem trimList_idem (l : List Char) : trimList (trimList l) = trimList l := by
  unfold trimList
  have hBdw : ((l.dropWhile wsChar).reverse.dropWhile wsChar).dropWhile wsChar
      = (l.dropWhile wsChar).reverse.dropWhile wsChar :=
    dropWhile_dropWhile_self wsChar (l.dropWhile wsChar).reverse
  have h1 : ((l.dropWhile wsChar).reverse.dropWhile wsChar).reverse.dropWhile wsChar
      = ((l.dropWhile wsChar).reverse.dropWhile wsChar).reverse := by
    apply dropWhile_eq_self_of_head
    intro a ha
    rw [List.head?_reverse] at ha
    rcases getLast?_dropWhile wsChar (l.dropWhile wsChar).reverse with h | h
    · rw [h] at ha; simp at ha
    · rw [h, List.getLast?_reverse] at ha
      exact head?_dropWhile_false wsChar l ha
  rw [h1, List.reverse_reverse, hBdw]

theorem dropWhile_map_comm (f : α → α) (p : α → Bool)
    (hf : ∀ a, p (f a) = p a) (l : List α) :
    (l.map f).dropWhile p = (l.dropWhile p).map f := by
  induction l with
  | nil => rfl
  | cons a t ih =>
      by_cases h : p a
      · simp only [List.map_cons, List.dropWhile_cons, hf, h, if_true]
        exact ih
      · simp [List.dropWhile_cons, hf, h]

theorem trimList_map_comm (f : Char → Char) (hf : ∀ a, wsChar (f a) = wsChar a)
    (l : List Char) : trimList (l.map f) = (trimList l).map f := by
  unfold trimList
  rw [dropWhile_map_comm f wsChar hf, ← List.map_reverse,
      dropWhile_map_comm f wsChar hf, ← List.map_reverse]

theorem toNat_lowerChar (c : Char) :
    (lowerChar c).toNat =
      if 65 ≤ c.toNat && c.toNat ≤ 90 then c.toNat + 32 else c.toNat := by
  by_cases h : 65 ≤ c.toNat && c.toNat ≤ 90
  · rw [if_pos h]
    unfold lowerChar
    rw [if_pos h]
    obtain ⟨h1, h2⟩ : 65 ≤ c.toNat ∧ c.toNat ≤ 90 := by simpa using h
    generalize c.toNat = n at h1 h2 ⊢
    interval_cases n <;> decide
  · rw [if_neg h]
    unfold lowerChar
    rw [if_neg h]

theorem lowerChar_not_upper (c : Char) :
    (65 ≤ (lowerChar c).toNat && (lowerChar c).toNat ≤ 90) = false := by
  have ht := toNat_lowerChar c
  by_cases h : 65 ≤ c.toNat && c.toNat ≤ 90
  · rw [if_pos h] at ht
    obtain ⟨h1, h2⟩ : 65 ≤ c.toNat ∧ c.toNat ≤ 90 := by simpa using h
    simp only [ht, Bool.and_eq_false_iff, decide_eq_false_iff_not]
    right; omega
  · rw [if_neg h] at ht
    simp only [ht]
    simpa using h

theorem lowerChar_eq_self (c : Char)
    (h : (65 ≤ c.toNat && c.toNat ≤ 90) = false) : lowerChar c = c := by
  simp [lowerChar, h]

theorem lowerChar_idem (c : Char) :
    lowerChar (lowerChar c) = lowerChar c :=
  lowerChar_eq_self _ (lowerChar_not_upper c)

theorem lowerChar_ws (c : Char) : wsChar (lowerChar c) = wsChar c := by
  have ht := toNat_lowerChar c
  unfold wsChar
  rw [decide_eq_decide]
  by_cases h : 65 ≤ c.toNat && c.toNat ≤ 90
  · rw [if_pos h] at ht
    obtain ⟨h1, h2⟩ : 65 ≤ c.toNat ∧ c.toNat ≤ 90 := by simpa using h
    rw [ht]; omega
  · rw [if_neg h] at ht
    rw [ht]

theorem map_lowerChar_idem (l : List Char) :
    (l.map lowerChar).map lowerChar = l.map lowerChar := by
  rw [List.map_map]
  exact List.map_congr_left (fun a _ => lowerChar_idem a)

theorem normalize_idem (s : String) :
    strLower (strTrim (strLower (strTrim s))) = strLower (strTrim s) := by
  show String.mk ((trimList ((trimList s.data).map lowerChar)).map lowerChar)
      = String.mk ((trimList s.data).map lowerChar)
  rw [trimList_map_comm lowerChar lowerChar_ws, trimList_idem, map_lowerChar_idem]

/-! ### Validator characterizations -/

theorem validate_file_path_ok_iff (path v : String) :
    validate_file_path path = .ok v ↔
      ((strIsEmpty (strTrim path) = false) ∧
       (strContains path ".." = false) ∧
       (dangerous_paths.any (fun d => strStartsWith path d) = false) ∧
       v = path) := by
  unfold validate_file_path
  by_cases h1 : strIsEmpty (strTrim path) <;>
    by_cases h2 : strContains path ".." <;>
      by_cases h3 : dangerous_paths.any (fun d => strStartsWith path d) <;>
        simp [h1, h2, h3, eq_comm]

theorem validate_command_ok_iff (command v : String) :
    validate_command command = .ok v ↔
      ((strIsEmpty (strTrim command) = false) ∧
       ((strContainsChar command ' ' || strContainsChar command '\t') = false) ∧
       (dangerous_chars.any (fun c => strContainsChar command c) = false) ∧
       command ∉ dangerous_commands ∧
       v = command) := by
  unfold validate_command
  by_cases h1 : strIsEmpty (strTrim command) <;>
    by_cases h2 : strContainsChar command ' ' || strContainsChar command '\t' <;>
      by_cases h3 : dangerous_chars.any (fun c => strContainsChar command c) <;>
        by_cases h4 : command ∈ dangerous_commands <;>
          simp [h1, h2, h3, h4, eq_comm]

theorem validate_network_domain_ok_iff (domain v : String) :
    validate_network_domain domain = .ok v ↔
      ((strIsEmpty (strLower (strTrim domain)) = false) ∧
       (strContainsChar (strLower (strTrim domain)) '*' = false) ∧
       strLower (strTrim domain) ∉ dangerous_ips ∧
       strLower (strTrim domain) ∉ metadata_hosts ∧
       ((strStartsWith (strLower (strTrim domain)) "192.168." ||
         strStartsWith (strLower (strTrim domain)) "10." ||
         strStartsWith (strLower (strTrim domain)) "172.") = false) ∧
       v = strLower (strTrim domain)) := by
  unfold validate_network_domain
  by_cases h1 : strIsEmpty (strLower (strTrim domain)) <;>
    by_cases h2 : strContainsChar (strLower (strTrim domain)) '*' <;>
      by_cases h3 : strLower (strTrim domain) ∈ dangerous_ips <;>
        by_cases h4 : strLower (strTrim domain) ∈ metadata_hosts <;>
          by_cases h5 : strStartsWith (strLower (strTrim domain)) "192.168." ||
              strStartsWith (strLower (strTrim domain)) "10." ||
              strStartsWith (strLower (strTrim domain)) "172." <;>
            simp [h1, h2, h3, h4, h5, eq_comm]

theorem validate_file_path_ok_self {path v : String}
    (h : validate_file_path path = .ok v) :
    (validate_file_path v).isOk = true := by
  obtain ⟨-, -, -, hv⟩ := (validate_file_path_ok_iff path v).mp h
  subst hv
  rw [h]
  rfl

theorem validate_command_ok_self {command v : String}
    (h : validate_command command = .ok v) :
    (validate_command v).isOk = true := by
  obtain ⟨-, -, -, -, hv⟩ := (validate_command_ok_iff command v).mp h
  subst hv
  rw [h]
  rfl

theorem validate_network_domain_ok_self {domain v : String}
    (h : validate_network_domain domain = .ok v) :
    (validate_network_domain v).isOk = true := by
  obtain ⟨h1, h2, h3, h4, h5, hv⟩ := (validate_network_domain_ok_iff domain v).mp h
  have hnorm : strLower (strTrim v) = v := by
    rw [hv]; exact normalize_idem domain
  have : validate_network_domain v = .ok v := by
    rw [validate_network_domain_ok_iff]
    rw [hnorm]
    refine ⟨?_, ?_, ?_, ?_, ?_, rfl⟩ <;> rw [← hv] at h1 h2 h3 h4 h5 <;> assumption
  rw [this]
  rfl

/-! ### Policy invariant preservation -/

theorem policyValid_allow_read {p : PluginPermissions} (s : String)
    (h : PolicyValid p) : PolicyValid (allow_read p s) := by
  unfold allow_read
  split
  · rename_i v hv
    split
    · exact h
    · obtain ⟨hr, hw, hn, hc⟩ := h
      refine ⟨?_, hw, hn, hc⟩
      intro x hx
      rcases List.mem_append.mp hx with hx | hx
      · exact hr x hx
      · rw [List.mem_singleton.mp hx]
        exact validate_file_path_ok_self hv
  · exact h

theorem policyValid_allow_write {p : PluginPermissions} (s : String)
    (h : PolicyValid p) : PolicyValid (allow_write p s) := by
  unfold allow_write
  split
  · rename_i v hv
    split
    · exact h
    · obtain ⟨hr, hw, hn, hc⟩ := h
      refine ⟨hr, ?_, hn, hc⟩
      intro x hx
      rcases List.mem_append.mp hx with hx | hx
      · exact hw x hx
      · rw [List.mem_singleton.mp hx]
        exact validate_file_path_ok_self hv
  · exact h

theorem policyValid_allow_network {p : PluginPermissions} (s : String)
    (h : PolicyValid p) : PolicyValid (allow_network p s) := by
  unfold allow_network
  split
  · rename_i v hv
    split
    · exact h
    · obtain ⟨hr, hw, hn, hc⟩ := h
      refine ⟨hr, hw, ?_, hc⟩
      intro x hx
      rcases List.mem_append.mp hx with hx | hx
      · exact hn x hx
      · rw [List.mem_singleton.mp hx]
        exact validate_network_domain_ok_self hv
  · exact h

theorem policyValid_allow_run {p : PluginPermissions} (s : String)
    (h : PolicyValid p) : PolicyValid (allow_run p s) := by
  unfold allow_run
  split
  · rename_i v hv
    split
    · exact h
    · obtain ⟨hr, hw, hn, hc⟩ := h
      refine ⟨hr, hw, hn, ?_⟩
      intro x hx
      rcases List.mem_append.mp hx with hx | hx
      · exact hc x hx
      · rw [List.mem_singleton.mp hx]
        exact validate_command_ok_self hv
  · exact h

theorem policyValid_foldl {f : PluginPermissions → String → PluginPermissions}
    (hf : ∀ p s, PolicyValid p → PolicyValid (f p s)) :
    ∀ (l : List String) (p : PluginPermissions),
      PolicyValid p → PolicyValid (l.foldl f p) := by
  intro l
  induction l with
  | nil => intro p h; exact h
  | cons a t ih => intro p h; exact ih (f p a) (hf p a h)

theorem policyValid_env {p : PluginPermissions} (e : Bool)
    (h : PolicyValid p) : PolicyValid { p with env_access := e } := h

theorem policyValid_apply {p : PluginPermissions}
    (config_perms : SecurityPermissions) (h : PolicyValid p) :
    PolicyValid (apply_security_permissions p config_perms) := by
  unfold apply_security_permissions
  apply policyValid_foldl (fun p s => policyValid_allow_run s)
  apply policyValid_foldl (fun p s => policyValid_allow_network s)
  cases config_perms.env_access with
  | none =>
      apply policyValid_foldl (fun p s => policyValid_allow_write s)
      exact policyValid_foldl (fun p s => policyValid_allow_read s) _ _ h
  | some e =>
      apply policyValid_env
      apply policyValid_foldl (fun p s => policyValid_allow_write s)
      exact policyValid_foldl (fun p s => policyValid_allow_read s) _ _ h

theorem policyValid_safe_defaults {project_root : String}
    (h : (validate_file_path project_root).isOk = true) :
    PolicyValid (safe_defaults project_root) := by
  refine ⟨?_, ?_, ?_, ?_⟩ <;> intro x hx
  · simp only [safe_defaults, List.mem_cons, List.mem_singleton,
      List.not_mem_nil, or_false] at hx
    rcases hx with rfl | rfl
    · exact h
    · decide
  · simp only [safe_defaults, List.mem_singleton] at hx
    subst hx
    exact h
  · simp [safe_defaults] at hx
  · simp [safe_defaults] at hx

/-! ### Claim C1 -/

/-- C1: the claim states that the `--allow-read` list passed to the
plugin runtime always contains the transport file's path.  On the Linux
default temp directory `/tmp` this fails: the transport path
`/tmp/mis-context-<pid>.json` starts with the denylisted prefix `/tmp/`,
so `allow_read` silently drops the grant and the `--allow-read` flag
value does not contain the transport path (which still appears as the
positional `--context-file` argument). -/
theorem C1_transport_read_grant_dropped :
    execute_plugin_deno_args "/tmp" 12345 "/home/user/proj"
        { commands := [], permissions := none } "build" "./plugin.ts"
      = ["run", "--allow-read=/home/user/proj,.makeitso",
         "--allow-write=/home/user/proj", "--allow-env", "./plugin.ts",
         "--context-file", "/tmp/mis-context-12345.json"] ∧
    strContains "--allow-read=/home/user/proj,.makeitso"
      (context_file_path "/tmp" 12345) = false := by
  constructor
  · decide
  · decide

/-! ### Claim C2 -/

/-- C2 (counterexample): the claim quantifies over every project root,
but `safe_defaults` inserts the project root into `file_read` and
`file_write` without validation; for the project root `/tmp/project`
(rejected by the path validator) the compiled policy violates the
claimed invariant. -/
theorem C2_claim_counterexample :
    ¬ PolicyValid (build_plugin_permissions_core "/tmp/project"
        { commands := [], permissions := none } "build") := by decide

/-- C2 (amended): for every project root accepted by the path validator
and every plugin-level and command-level declared permissions, every
element of the compiled policy's `file_read` and `file_write` lists
satisfies the path validator, every element of `network` satisfies the
host validator, and every element of `run_commands` satisfies the
command validator.  The compiled value is pure, so the invariant holds
for its whole lifetime. -/
theorem C2_compiled_policy_valid (project_root : String)
    (m : PluginManifest) (command_name : String)
    (hroot : (validate_file_path project_root).isOk = true) :
    PolicyValid (build_plugin_permissions_core project_root m command_name) := by
  have h0 : PolicyValid (safe_defaults project_root) :=
    policyValid_safe_defaults hroot
  unfold build_plugin_permissions_core
  cases hp : m.permissions with
  | none =>
      cases hl : m.commands.lookup command_name with
      | none => simp only [hp, hl]; exact h0
      | some cmd =>
          cases hc : cmd.permissions with
          | none => simp only [hp, hl, hc]; exact h0
          | some cp => simp only [hp, hl, hc]; exact policyValid_apply cp h0
  | some pp =>
      have h1 : PolicyValid (apply_security_permissions (safe_defaults project_root) pp) :=
        policyValid_apply pp h0
      cases hl : m.commands.lookup command_name with
      | none => simp only [hp, hl]; exact h1
      | some cmd =>
          cases hc : cmd.permissions with
          | none => simp only [hp, hl, hc]; exact h1
          | some cp => simp only [hp, hl, hc]; exact policyValid_apply cp h1

/-- C2 witness: the amended theorem applied to a concrete accepted
project root and concrete declared permissions containing both accepted
and rejected entries. -/
theorem C2_compiled_policy_valid_witness :
    (validate_file_path "/home/user/project").isOk = true ∧
    PolicyValid (build_plugin_permissions_core "/home/user/project"
      mixedManifest "deploy") :=
  ⟨by decide, C2_compiled_policy_valid "/home/user/project" _ "deploy" (by decide)⟩

/-! ### Claim C3 -/

/-- C3: on every outcome of `execute_plugin` — success, non-zero exit,
spawn failure, a host error propagating out, or a panic unwinding
through the call — the transport file does not exist afterwards
(assuming its per-invocation unique name did not already exist). -/
theorem C3_transport_file_removed (temp_dir : String) (pid : Nat)
    (fs : List String) (outcome : LaunchOutcome)
    (hfresh : context_file_path temp_dir pid ∉ fs) :
    context_file_path temp_dir pid ∉
      (execute_plugin_fs fs (context_file_path temp_dir pid) outcome).2 := by
  cases outcome <;> simp only [execute_plugin_fs, contextFileCleanup]
  case earlyError => exact hfresh
  all_goals simp [List.mem_filter]

/-- C3 witness: concrete launch on an empty file system with a
successful plugin exit. -/
theorem C3_transport_file_removed_witness :
    (context_file_path "/tmp" 1 ∉ ([] : List String)) ∧
    context_file_path "/tmp" 1 ∉
      (execute_plugin_fs [] (context_file_path "/tmp" 1) .exitedOk).2 :=
  ⟨List.not_mem_nil _,
   C3_transport_file_removed "/tmp" 1 [] .exitedOk (List.not_mem_nil _)⟩

/-! ### Claim C4 -/

/-- C4 (counterexample): `C:\temp\x` is rejected by the code's
`validate_file_path` although it is non-empty, contains no `..`, and
starts with none of the seventeen prefixes enumerated by the claim —
the code's denylist additionally contains `C:\temp\`. -/
theorem C4_claim_counterexample :
    strIsEmpty (strTrim "C:\\temp\\x") = false ∧
    strContains "C:\\temp\\x" ".." = false ∧
    (["/etc/", "/root/", "/sys/", "/proc/", "/dev/", "/tmp/", "/boot/",
      "/usr/bin/", "/usr/sbin/", "/bin/", "/sbin/",
      "C:\\Windows\\", "C:\\Program Files\\", "C:\\Users\\",
      "/System/", "/Library/", "/Applications/"].all
        (fun d => !(strStartsWith "C:\\temp\\x" d))) = true ∧
    (validate_file_path "C:\\temp\\x").isOk = false := by decide

/-- C4 (amended): `validate_file_path` rejects a raw string if and only
if it is empty or whitespace-only, contains `..`, or starts with one of
the prefixes of `dangerous_paths` — the claim's seventeen plus
`C:\temp\`; every accepted string is returned unchanged. -/
theorem C4_validate_path_characterization (path : String) :
    ((validate_file_path path).isOk =
      (!(strIsEmpty (strTrim path)) && !(strContains path "..") &&
       !(dangerous_paths.any (fun d => strStartsWith path d)))) ∧
    (validate_file_path path).toOption.getD path = path := by
  unfold validate_file_path
  by_cases h1 : strIsEmpty (strTrim path) <;>
    by_cases h2 : strContains path ".." <;>
      by_cases h3 : dangerous_paths.any (fun d => strStartsWith path d) <;>
        simp [h1, h2, h3]

/-! ### Claim C5 -/

/-- C5 (counterexample): the host `metadata.google.internal` is
rejected by the §4.2 host validator `validate_network_domain`, yet the
registry URL validator accepts a URL with exactly that host —
`validate_host_for_external_access` does not know the named metadata
endpoints. -/
theorem C5_claim_counterexample :
    (validate_network_domain "metadata.google.internal").isOk = false ∧
    parse_url (strTrim "https://metadata.google.internal/repo") =
      some ("https", "metadata.google.internal") ∧
    validate_url_for_git_operations "https://metadata.google.internal/repo"
      "registry" = .ok "https://metadata.google.internal/repo" := by
  refine ⟨by decide, by decide, by rfl⟩

/-- C5 (amended): the host check actually applied by both URL
validators is `validate_host_for_external_access` (loopback literals,
the two metadata IPs, and the private IPv4 ranges of `is_private_ip`),
not the §4.2 validator: every parsed URL whose extracted host that
check rejects is rejected by the registry URL validator and by the
dependency URL validator. -/
theorem C5_url_validator_host_check (url scheme host : String)
    (hgit : strStartsWith (strTrim url) "git@" = false)
    (hparse : parse_url (strTrim url) = some (scheme, host)) :
    ((validate_host_for_external_access host "registry").isOk = false →
      (validate_url_for_git_operations url "registry").isOk = false) ∧
    ((validate_host_for_external_access host "dependency").isOk = false →
      (validate_url_for_dependencies url).isOk = false) := by
  constructor
  · intro hh
    by_cases he : strIsEmpty (strTrim url) = true
    · simp [validate_url_for_git_operations, he]
    · by_cases hc : strContains (strTrim url) "::1" = true
      · simp [validate_url_for_git_operations, he, hgit, hc]
      · cases hv : validate_host_for_external_access host "registry" with
        | ok u => rw [hv] at hh; simp at hh
        | error e =>
            by_cases hs1 : (scheme == "file") = true
            · simp [validate_url_for_git_operations, he, hgit, hc, hparse,
                hs1]
            · by_cases hs2 : (scheme == "javascript" || scheme == "data" ||
                  scheme == "ftp") = true
              · simp [validate_url_for_git_operations, he, hgit, hc, hparse,
                  hs1, hs2]
              · simp [validate_url_for_git_operations, he, hgit, hc, hparse,
                  hs1, hs2, hv]
  · intro hh
    by_cases he : strIsEmpty (strTrim url) = true
    · simp [validate_url_for_dependencies, he]
    · by_cases hrel : (strStartsWith (strTrim url) "../" ||
          strContains (strTrim url) "/../") = true
      · simp [validate_url_for_dependencies, he, hrel]
      · by_cases hc : strContains (strTrim url) "::1" = true
        · simp [validate_url_for_dependencies, he, hrel, hc]
        · cases hv : validate_host_for_external_access host "dependency" with
          | ok u => rw [hv] at hh; simp at hh
          | error e =>
              by_cases hs1 : (scheme == "file") = true
              · simp [validate_url_for_dependencies, he, hrel, hc, hparse,
                  hs1]
              · by_cases hs2 : (scheme == "javascript" || scheme == "data" ||
                    scheme == "ftp" || scheme == "mailto") = true
                · simp [validate_url_for_dependencies, he, hrel, hc, hparse,
                    hs1, hs2]
                · simp [validate_url_for_dependencies, he, hrel, hc, hparse,
                    hs1, hs2, hv]

/-- C5 witness: a URL with a private-range host is rejected by both URL
validators. -/
theorem C5_url_validator_host_check_witness :
    strStartsWith (strTrim "https://192.168.1.1/repo") "git@" = false ∧
    parse_url (strTrim "https://192.168.1.1/repo") =
      some ("https", "192.168.1.1") ∧
    (validate_host_for_external_access "192.168.1.1" "registry").isOk = false ∧
    (validate_host_for_external_access "192.168.1.1" "dependency").isOk = false ∧
    (validate_url_for_git_operations "https://192.168.1.1/repo" "registry").isOk
      = false ∧
    (validate_url_for_dependencies "https://192.168.1.1/repo").isOk = false :=
  ⟨by decide, by decide, by decide, by decide,
   (C5_url_validator_host_check "https://192.168.1.1/repo" "https" "192.168.1.1"
      (by decide) (by decide)).1 (by decide),
   (C5_url_validator_host_check "https://192.168.1.1/repo" "https" "192.168.1.1"
      (by decide) (by decide)).2 (by decide)⟩

/-! ### Claim C6 -/

/-- C6 (counterexample): `172.32.0.1` is already normalized, its second
octet 32 is outside 16-31 (witnessed by `is_private_ip`, the code's own
precise 172.16-31 test, returning false), yet `validate_network_domain`
rejects it: the network permission validator rejects every `172.`
prefix. -/
theorem C6_claim_counterexample :
    is_private_ip "172.32.0.1" = false ∧
    strLower (strTrim "172.32.0.1") = "172.32.0.1" ∧
    (validate_network_domain "172.32.0.1").isOk = false := by decide

/-- C6 (amended): `validate_network_domain` rejects private IPv4 ranges
by the prefixes `192.168.`, `10.`, and all of `172.` (every second
octet, not only 16-31); a normalized host matching no rejection rule is
accepted and returned as the trimmed, lowercased string. -/
theorem C6_validate_host_characterization (domain : String) :
    ((validate_network_domain domain).isOk =
      (!(strIsEmpty (strLower (strTrim domain))) &&
       !(strContainsChar (strLower (strTrim domain)) '*') &&
       !(dangerous_ips.contains (strLower (strTrim domain))) &&
       !(metadata_hosts.contains (strLower (strTrim domain))) &&
       !(strStartsWith (strLower (strTrim domain)) "192.168." ||
         strStartsWith (strLower (strTrim domain)) "10." ||
         strStartsWith (strLower (strTrim domain)) "172."))) ∧
    (validate_network_domain domain).toOption.getD (strLower (strTrim domain))
      = strLower (strTrim domain) := by
  unfold validate_network_domain
  by_cases h1 : strIsEmpty (strLower (strTrim domain)) <;>
    by_cases h2 : strContainsChar (strLower (strTrim domain)) '*' <;>
      by_cases h3 : strLower (strTrim domain) ∈ dangerous_ips <;>
        by_cases h4 : strLower (strTrim domain) ∈ metadata_hosts <;>
          by_cases h5 : strStartsWith (strLower (strTrim domain)) "192.168." ||
              strStartsWith (strLower (strTrim domain)) "10." ||
              strStartsWith (strLower (strTrim domain)) "172." <;>
            simp [h1, h2, h3, h4, h5]

/-! ### Claim C7 -/

/-- C7 (counterexample): the SSH shorthand `alice@github.com:user/repo.git`
with user `alice` is rejected by the registry URL validator — only the
literal prefix `git@` is special-cased, and the string fails URL
parsing (its scheme position holds `alice@github.com`, not a valid
scheme). -/
theorem C7_claim_counterexample :
    strContains "alice@github.com:user/repo.git" "::1" = false ∧
    parse_url "alice@github.com:user/repo.git" = none ∧
    (validate_url_for_git_operations "alice@github.com:user/repo.git"
      "registry").isOk = false := by decide

/-- C7 (amended): only SSH shorthand whose trimmed form starts with the
literal `git@` is accepted by the registry URL validator without
further parsing; it is returned trimmed. -/
theorem C7_git_shorthand_accepted (url : String)
    (h : strStartsWith (strTrim url) "git@" = true) :
    validate_url_for_git_operations url "registry" = .ok (strTrim url) := by
  have hne : strIsEmpty (strTrim url) = false := by
    cases h' : strIsEmpty (strTrim url) with
    | false => rfl
    | true =>
        exfalso
        have hdata : (strTrim url).data = [] := by
          simpa [strIsEmpty, List.isEmpty_iff] using h'
        rw [strStartsWith, hdata] at h
        simp [List.isPrefixOf] at h
  simp [validate_url_for_git_operations, hne, h]

/-- C7 witness: the canonical git SSH shorthand is accepted unchanged. -/
theorem C7_git_shorthand_accepted_witness :
    strStartsWith (strTrim "git@github.com:user/repo.git") "git@" = true ∧
    validate_url_for_git_operations "git@github.com:user/repo.git" "registry"
      = .ok (strTrim "git@github.com:user/repo.git") :=
  ⟨by decide, C7_git_shorthand_accepted "git@github.com:user/repo.git" (by decide)⟩

/-! ### Claim C8 -/

/-- C8: compiling plugin-level `run_commands = ["git"]` with
command-level `run_commands = ["git", "docker"]` for the invoked
command yields both `git` and `docker`, with `git` exactly once —
command grants are unioned into plugin grants and duplicates collapse. -/
theorem C8_run_commands_union :
    (build_plugin_permissions_core "/test/project" unionManifest
      "deploy").run_commands = ["git", "docker"] ∧
    (build_plugin_permissions_core "/test/project" unionManifest
      "deploy").run_commands.count "git" = 1 := by decide

/-! ### Claim C9 -/

/-- C9: permission compilation never fails — `build_plugin_permissions`
returns `Ok` for every input; an entry any `allow_*` method rejects
leaves the policy unchanged (it is omitted); and the manifest declaring
`run_commands = ["rm -rf /"]` compiles to an empty `run_commands` set
producing no `--allow-run` flag. -/
theorem C9_compile_never_fails_rejected_omitted :
    (∀ (project_root : String) (m : PluginManifest) (command_name : String),
        (build_plugin_permissions project_root m command_name).isOk = true) ∧
    (∀ (p : PluginPermissions) (s : String),
        allow_read p s = p ∨ (validate_file_path s).isOk = true) ∧
    (∀ (p : PluginPermissions) (s : String),
        allow_write p s = p ∨ (validate_file_path s).isOk = true) ∧
    (∀ (p : PluginPermissions) (s : String),
        allow_network p s = p ∨ (validate_network_domain s).isOk = true) ∧
    (∀ (p : PluginPermissions) (s : String),
        allow_run p s = p ∨ (validate_command s).isOk = true) ∧
    (build_plugin_permissions_core "/test/project" rmManifest
        "run-it").run_commands = [] ∧
    ((to_deno_args (build_plugin_permissions_core "/test/project" rmManifest
        "run-it")).all (fun a => !(strStartsWith a "--allow-run="))) = true := by
  refine ⟨fun _ _ _ => rfl, ?_, ?_, ?_, ?_, by decide, by decide⟩
  · intro p s
    cases hv : validate_file_path s with
    | error e => exact Or.inl (by simp [allow_read, hv])
    | ok v => exact Or.inr rfl
  · intro p s
    cases hv : validate_file_path s with
    | error e => exact Or.inl (by simp [allow_write, hv])
    | ok v => exact Or.inr rfl
  · intro p s
    cases hv : validate_network_domain s with
    | error e => exact Or.inl (by simp [allow_network, hv])
    | ok v => exact Or.inr rfl
  · intro p s
    cases hv : validate_command s with
    | error e => exact Or.inl (by simp [allow_run, hv])
    | ok v => exact Or.inr rfl

/-! ### Claim C10 -/

/-- C10: every registry URL whose trimmed form does not begin with
`git@` and contains the substring `::1` anywhere is rejected with the
loopback error by the pre-parsing substring check. -/
theorem C10_ipv6_loopback_substring_rejected (url : String)
    (hgit : strStartsWith (strTrim url) "git@" = false)
    (hc : strContains (strTrim url) "::1" = true) :
    validate_url_for_git_operations url "registry" =
      .error "localhost/loopback access not allowed for registry URLs" := by
  have hne : strIsEmpty (strTrim url) = false := by
    cases h' : strIsEmpty (strTrim url) with
    | false => rfl
    | true =>
        exfalso
        have hdata : (strTrim url).data = [] := by
          simpa [strIsEmpty, List.isEmpty_iff] using h'
        rw [strContains, hdata] at hc
        exact absurd hc (by decide)
  simp [validate_url_for_git_operations, hne, hgit, hc]

/-- C10 witness: a URL whose `::1` occurrence sits inside an unrelated
IPv6 address is rejected. -/
theorem C10_ipv6_loopback_substring_rejected_witness :
    strStartsWith (strTrim "https://[2001:db8::1]/repo") "git@" = false ∧
    strContains (strTrim "https://[2001:db8::1]/repo") "::1" = true ∧
    validate_url_for_git_operations "https://[2001:db8::1]/repo" "registry" =
      .error "localhost/loopback access not allowed for registry URLs" :=
  ⟨by decide, by decide,
   C10_ipv6_loopback_substring_rejected "https://[2001:db8::1]/repo"
     (by decide) (by decide)⟩

end MakeItSo
